import Mathlib

set_option linter.unusedVariables false
set_option maxHeartbeats 4000000
set_option maxRecDepth 100000

/-! Verification of the Copy Propagation pass, the Constant Field Propagation
pass and the oatmeal `FileHandle` byte accounting of this repository.

The two optimization passes are embedded from the specification (their C++
implementation is not part of the sources here; only their unit tests are),
and every behavioural statement is checked against the concrete programs of
those unit tests. -/

/-- Registers are integer identifiers of value slots within one method. -/
abbrev Reg := Nat

/-- Modelled from the spec: the IR instruction forms exercised by the Copy
Propagation unit tests (`CopyPropagationTest.cpp`).  Branch targets are
already-resolved instruction indices (the spec assumes branch targets are
linked upstream). -/
inductive Instr where
  | const (dst : Reg) (lit : Int)
  | move (dst src : Reg)
  | moveObject (dst src : Reg)
  | monitorEnter (src : Reg)
  | monitorExit (src : Reg)
  | invokeStatic (srcs : List Reg) (method : String)
  | intToFloat (dst src : Reg)
  | floatToInt (dst src : Reg)
  | addIntLit8 (dst src : Reg) (lit : Int)
  | ifEqz (src : Reg) (target : Nat)
  | ifEq (src1 src2 : Reg) (target : Nat)
  | goto (target : Nat)
  | ret (src : Reg)
  | returnVoid
deriving DecidableEq, Repr

/-- Minimum of a list of naturals, seeded with `init`. -/
def natMinList (init : Nat) (l : List Nat) : Nat :=
  l.foldr (fun x m => if x ≤ m then x else m) init

/-- Modelled from the spec: the Alias Tracker state (`AliasGroups`), a
partition of the register universe `0 .. size-1` into alias classes.  It is
stored as an explicit table `cls` of length `size`: `cls[r]` is the label of
`r`'s class, maintained as the smallest member of the class (the repository's
unit tests `simple` and `cliqueAliasing` pin the representative of a class
down to its lowest-numbered register). -/
structure AliasState where
  cls : List Nat
deriving Repr

/-- The size of the register universe the state talks about. -/
def AliasState.size (s : AliasState) : Nat := s.cls.length

/-- Class label of register `r`; registers outside the table are their own
singleton class. -/
def AliasState.clsAt (s : AliasState) (r : Reg) : Nat := (s.cls[r]?).getD r

/-- Two registers are aliased when they carry the same class label. -/
def AliasState.aliased (s : AliasState) (a b : Reg) : Prop := s.clsAt a = s.clsAt b

instance (s : AliasState) (a b : Reg) : Decidable (s.aliased a b) :=
  inferInstanceAs (Decidable (s.clsAt a = s.clsAt b))

/-- Boolean form of `AliasState.aliased`, used by the executable pass. -/
def AliasState.aliasedB (s : AliasState) (a b : Reg) : Bool := s.clsAt a == s.clsAt b

/-- Modelled from the spec: the empty partition — every register its own
singleton class. -/
def AliasState.empty (n : Nat) : AliasState := ⟨List.range n⟩

/-- Modelled from the spec: `invalidate(reg)` — called whenever `reg` is
written by an instruction other than a tracked copy; removes `reg` from its
class, making it its own singleton class.  The remaining members of the
class are relabelled with their smallest member. -/
def AliasState.invalidate (s : AliasState) (r : Reg) : AliasState :=
  ⟨(List.range s.size).map (fun x =>
      if x = r then r
      else if s.clsAt x = s.clsAt r then
        natMinList (s.size + r + 1)
          ((List.range s.size).filter (fun y => (y != r) && (s.clsAt y == s.clsAt r)))
      else s.clsAt x)⟩

/-- Modelled from the spec: `bind(dst, src)` — records that `dst` now aliases
`src`'s class: `dst` is first severed from its old class and then joins the
class of `src`, whose label is the smallest member of the merged class. -/
def AliasState.bind (s : AliasState) (dst src : Reg) : AliasState :=
  if dst = src then s
  else
    let s1 := s.invalidate dst
    let c := s1.clsAt src
    let m := Nat.min dst c
    ⟨(List.range s.size).map (fun x =>
        if x = dst then m else if s1.clsAt x = c then m else s1.clsAt x)⟩

/-- Modelled from the spec: `intersect(other)` — the common-knowledge state
for a CFG join: two registers are aliased in the result iff they are aliased
in both input states.  Each register is relabelled with the smallest register
of its intersection class. -/
def AliasState.intersect (s1 s2 : AliasState) : AliasState :=
  ⟨(List.range s1.size).map (fun r =>
      natMinList r ((List.range s1.size).filter (fun x =>
        (s1.clsAt x == s1.clsAt r) && (s2.clsAt x == s2.clsAt r))))⟩

/-- Modelled from the spec: `representative_of(reg)` — the class
representative for `reg`, or `reg` itself if singleton. -/
def AliasState.representative_of (s : AliasState) (r : Reg) : Nat := s.clsAt r

theorem natMinList_mem (init : Nat) (l : List Nat) :
    natMinList init l = init ∨ natMinList init l ∈ l := by
  induction l with
  | nil => left; rfl
  | cons x xs ih =>
    have h : natMinList init (x :: xs) =
        if x ≤ natMinList init xs then x else natMinList init xs := rfl
    rw [h]
    by_cases hle : x ≤ natMinList init xs
    · rw [if_pos hle]; right; exact List.mem_cons_self x xs
    · rw [if_neg hle]
      rcases ih with h1 | h1
      · left; exact h1
      · right; exact List.mem_cons_of_mem x h1

theorem natMinList_le (init : Nat) (l : List Nat) : ∀ x ∈ l, natMinList init l ≤ x := by
  induction l with
  | nil => intro x hx; cases hx
  | cons y ys ih =>
    intro x hx
    have h : natMinList init (y :: ys) =
        if y ≤ natMinList init ys then y else natMinList init ys := rfl
    rcases List.mem_cons.mp hx with rfl | hx'
    · rw [h]; by_cases hle : x ≤ natMinList init ys
      · rw [if_pos hle]
      · rw [if_neg hle]; omega
    · rw [h]; have hx2 := ih x hx'
      by_cases hle : y ≤ natMinList init ys
      · rw [if_pos hle]; omega
      · rw [if_neg hle]; exact hx2

theorem natMinList_le_init (init : Nat) (l : List Nat) : natMinList init l ≤ init := by
  induction l with
  | nil => exact Nat.le_refl init
  | cons y ys ih =>
    have h : natMinList init (y :: ys) =
        if y ≤ natMinList init ys then y else natMinList init ys := rfl
    rw [h]
    by_cases hle : y ≤ natMinList init ys
    · rw [if_pos hle]; omega
    · rw [if_neg hle]; exact ih

theorem natMinList_init_swap (l : List Nat) (a b : Nat) (ha : a ∈ l) (hb : b ∈ l) :
    natMinList a l = natMinList b l := by
  apply Nat.le_antisymm
  · rcases natMinList_mem b l with h | h
    · rw [h]; exact natMinList_le a l b hb
    · exact natMinList_le a l _ h
  · rcases natMinList_mem a l with h | h
    · rw [h]; exact natMinList_le b l a ha
    · exact natMinList_le b l _ h

theorem clsAt_mk (n : Nat) (f : Nat → Nat) (r : Nat) (hr : r < n) :
    (AliasState.mk ((List.range n).map f)).clsAt r = f r := by
  unfold AliasState.clsAt
  simp [List.getElem?_map, List.getElem?_range hr]

theorem size_intersect (s1 s2 : AliasState) : (s1.intersect s2).size = s1.size := by
  simp [AliasState.intersect, AliasState.size]

theorem mem_intersect_members (s1 s2 : AliasState) (r x : Nat) :
    x ∈ (List.range s1.size).filter (fun x =>
        (s1.clsAt x == s1.clsAt r) && (s2.clsAt x == s2.clsAt r)) ↔
      (x < s1.size ∧ s1.clsAt x = s1.clsAt r ∧ s2.clsAt x = s2.clsAt r) := by
  simp [List.mem_filter, List.mem_range, Bool.and_eq_true, beq_iff_eq, and_assoc]

/-- `intersect` computes the meet of the two alias partitions: the result
aliases two in-range registers iff both inputs alias them.  This is the
common-knowledge CFG-join semantics demanded by the spec. -/
theorem aliased_intersect (s1 s2 : AliasState) (a b : Nat)
    (ha : a < s1.size) (hb : b < s1.size) :
    (s1.intersect s2).aliased a b ↔ (s1.aliased a b ∧ s2.aliased a b) := by
  have hca : (s1.intersect s2).clsAt a =
      natMinList a ((List.range s1.size).filter (fun x =>
        (s1.clsAt x == s1.clsAt a) && (s2.clsAt x == s2.clsAt a))) :=
    clsAt_mk s1.size _ a ha
  have hcb : (s1.intersect s2).clsAt b =
      natMinList b ((List.range s1.size).filter (fun x =>
        (s1.clsAt x == s1.clsAt b) && (s2.clsAt x == s2.clsAt b))) :=
    clsAt_mk s1.size _ b hb
  have hamem : a ∈ (List.range s1.size).filter (fun x =>
      (s1.clsAt x == s1.clsAt a) && (s2.clsAt x == s2.clsAt a)) :=
    (mem_intersect_members s1 s2 a a).mpr ⟨ha, rfl, rfl⟩
  have hbmem : b ∈ (List.range s1.size).filter (fun x =>
      (s1.clsAt x == s1.clsAt b) && (s2.clsAt x == s2.clsAt b)) :=
    (mem_intersect_members s1 s2 b b).mpr ⟨hb, rfl, rfl⟩
  constructor
  · intro h
    unfold AliasState.aliased at h
    rw [hca, hcb] at h
    -- the common label is a member of both intersection classes
    have hma : natMinList a ((List.range s1.size).filter (fun x =>
        (s1.clsAt x == s1.clsAt a) && (s2.clsAt x == s2.clsAt a))) ∈
        (List.range s1.size).filter (fun x =>
          (s1.clsAt x == s1.clsAt a) && (s2.clsAt x == s2.clsAt a)) := by
      rcases natMinList_mem a _ with h1 | h1
      · rw [h1]; exact hamem
      · exact h1
    have hmb : natMinList a ((List.range s1.size).filter (fun x =>
        (s1.clsAt x == s1.clsAt a) && (s2.clsAt x == s2.clsAt a))) ∈
        (List.range s1.size).filter (fun x =>
          (s1.clsAt x == s1.clsAt b) && (s2.clsAt x == s2.clsAt b)) := by
      rw [h]
      rcases natMinList_mem b _ with h1 | h1
      · rw [h1]; exact hbmem
      · exact h1
    have ha' := (mem_intersect_members s1 s2 a _).mp hma
    have hb' := (mem_intersect_members s1 s2 b _).mp hmb
    exact ⟨ha'.2.1.symm.trans hb'.2.1, ha'.2.2.symm.trans hb'.2.2⟩
  · rintro ⟨h1, h2⟩
    unfold AliasState.aliased at h1 h2 ⊢
    rw [hca, hcb]
    have hfe : (fun x => (s1.clsAt x == s1.clsAt a) && (s2.clsAt x == s2.clsAt a)) =
        (fun x => (s1.clsAt x == s1.clsAt b) && (s2.clsAt x == s2.clsAt b)) := by
      funext x; rw [h1, h2]
    rw [hfe] at hamem ⊢
    exact natMinList_init_swap _ a b hamem hbmem

/-- The meet over a whole list of predecessor exit states: two in-range
registers are aliased in the folded result iff they are aliased in the seed
state and in every state of the list. -/
theorem aliased_intersect_foldl (ss : List AliasState) (s : AliasState) (a b : Nat)
    (ha : a < s.size) (hb : b < s.size) :
    (ss.foldl AliasState.intersect s).aliased a b ↔
      (s.aliased a b ∧ ∀ t ∈ ss, t.aliased a b) := by
  induction ss generalizing s with
  | nil => simp
  | cons t ts ih =>
    have ha' : a < (s.intersect t).size := by rw [size_intersect]; exact ha
    have hb' : b < (s.intersect t).size := by rw [size_intersect]; exact hb
    simp only [List.foldl_cons]
    rw [ih (s.intersect t) ha' hb', aliased_intersect s t a b ha hb]
    simp [List.forall_mem_cons, and_assoc]

/-- Modelled from the spec: recognized copy forms are the register-to-register
move instructions (non-wide and object variants appear in the unit tests). -/
def Instr.isCopy : Instr → Bool
  | .move _ _ => true
  | .moveObject _ _ => true
  | _ => false

/-- Source registers read by an instruction. -/
def Instr.srcRegs : Instr → List Reg
  | .const _ _ => []
  | .move _ s => [s]
  | .moveObject _ s => [s]
  | .monitorEnter s => [s]
  | .monitorExit s => [s]
  | .invokeStatic srcs _ => srcs
  | .intToFloat _ s => [s]
  | .floatToInt _ s => [s]
  | .addIntLit8 _ s _ => [s]
  | .ifEqz s _ => [s]
  | .ifEq s1 s2 _ => [s1, s2]
  | .goto _ => []
  | .ret s => [s]
  | .returnVoid => []

/-- Destination register written by an instruction, when any. -/
def Instr.dstReg : Instr → Option Reg
  | .const d _ => some d
  | .move d _ => some d
  | .moveObject d _ => some d
  | .intToFloat d _ => some d
  | .floatToInt d _ => some d
  | .addIntLit8 d _ _ => some d
  | _ => none

/-- Modelled from the spec: an instruction is range-form-eligible when later
lowering may convert it to a contiguous-register-range encoding.  An invoke
needs range form once it has more than five register arguments (the
`noRemapRange` unit test uses a six-argument invoke, while the
`representative` test shows a one-argument invoke is freely rewritten). -/
def Instr.rangeEligible : Instr → Bool
  | .invokeStatic srcs _ => decide (srcs.length > 5)
  | _ => false

/-- Modelled from the spec: the forbidden-substitution set — all operands of a
range-form-eligible instruction, and the operands of `monitor-enter` /
`monitor-exit`. -/
def Instr.noRewrite (i : Instr) : Bool :=
  match i with
  | .monitorEnter _ => true
  | .monitorExit _ => true
  | _ => i.rangeEligible

/-- Modelled from the spec: the dataflow transfer function of one instruction:
`bind` for a recognized copy, `invalidate` on the destination of every other
writing instruction. -/
def transfer (i : Instr) (s : AliasState) : AliasState :=
  match i with
  | .move d sr => s.bind d sr
  | .moveObject d sr => s.bind d sr
  | .const d _ => s.invalidate d
  | .intToFloat d _ => s.invalidate d
  | .floatToInt d _ => s.invalidate d
  | .addIntLit8 d _ _ => s.invalidate d
  | _ => s

/-- CFG successors of the instruction at index `idx` in a program of `len`
instructions. -/
def Instr.succsAt (i : Instr) (idx len : Nat) : List Nat :=
  match i with
  | .goto t => [t]
  | .ifEqz _ t => (if idx + 1 < len then [idx + 1] else []) ++ [t]
  | .ifEq _ _ t => (if idx + 1 < len then [idx + 1] else []) ++ [t]
  | .ret _ => []
  | .returnVoid => []
  | _ => if idx + 1 < len then [idx + 1] else []

/-- Meet of two optional states; `none` stands for "not yet reached" and is
the identity of the meet. -/
def meetO : Option AliasState → Option AliasState → Option AliasState
  | none, b => b
  | some a, none => some a
  | some a, some b => some (a.intersect b)

/-- Modelled from the spec: one Jacobi round of the forward fixpoint: the
entry instruction receives the empty partition, every other instruction
receives the `intersect` of the exit states of all its predecessors that have
been reached so far. -/
def stepStates (p : List Instr) (n : Nat) (sts : List (Option AliasState)) :
    List (Option AliasState) :=
  (List.range p.length).map (fun i =>
    if i = 0 then some (AliasState.empty n)
    else
      (List.range p.length).foldl (fun acc j =>
        match p[j]?, sts[j]? with
        | some ins, some (some s) =>
          if i ∈ ins.succsAt j p.length then meetO acc (some (transfer ins s)) else acc
        | _, _ => acc) none)

/-- Iterate the dataflow rounds `k` times starting from "nothing reached". -/
def iterStates (p : List Instr) (n : Nat) : Nat → List (Option AliasState)
  | 0 => List.replicate p.length none
  | k + 1 => stepStates p n (iterStates p n k)

/-- Modelled from the spec: the per-instruction incoming states of the
forward fixpoint.  The spec leaves the re-iteration bound open ("pick any
bound ≥ CFG size"); the model iterates `length + n + 4` rounds. -/
def inStates (p : List Instr) (n : Nat) : List (Option AliasState) :=
  iterStates p n (p.length + n + 4)

/-- The alias state immediately preceding instruction `i` (empty partition
for unreached code). -/
def stateAt (p : List Instr) (n : Nat) (i : Nat) : AliasState :=
  match (inStates p n)[i]? with
  | some (some s) => s
  | _ => AliasState.empty n

/-- Configuration surface of the pass, as in `CopyPropagationPass::Config`. -/
structure Config where
  all_transitives : Bool := false

/-- The default construction `CopyPropagationPass::Config config;`. -/
def defaultConfig : Config := {}

/-- Rewrite the source operands of one instruction to their representatives,
unless the instruction is in the forbidden-substitution set.  Destinations
are never rewritten. -/
def rewriteInstr (s : AliasState) (i : Instr) : Instr :=
  if i.noRewrite then i
  else
    match i with
    | .move d sr => .move d (s.representative_of sr)
    | .moveObject d sr => .moveObject d (s.representative_of sr)
    | .intToFloat d sr => .intToFloat d (s.representative_of sr)
    | .floatToInt d sr => .floatToInt d (s.representative_of sr)
    | .addIntLit8 d sr l => .addIntLit8 d (s.representative_of sr) l
    | .ifEqz sr t => .ifEqz (s.representative_of sr) t
    | .ifEq sr1 sr2 t => .ifEq (s.representative_of sr1) (s.representative_of sr2) t
    | .invokeStatic srcs m => .invokeStatic (srcs.map s.representative_of) m
    | .ret sr => .ret (s.representative_of sr)
    | other => other

/-- A copy instruction is deleted when its destination and source are already
aliased in the incoming state (self-moves are the trivial case).  This is the
deletion rule the repository's unit tests `deleteSelfMove`,
`deleteRepeatedMove` and `intersect` pin down for the default configuration. -/
def deleteCopy (s : AliasState) : Instr → Bool
  | .move d sr => s.aliasedB d sr
  | .moveObject d sr => s.aliasedB d sr
  | _ => false

/-- Modelled from the spec: `CopyPropagation(config).run(code)` over a method
body of `n` registers: run the forward fixpoint, then rewrite every allowed
source operand to its representative under the state preceding the
instruction and drop the redundant copies.  Where the spec's prose
("this pass's only deletion responsibility is self-moves", and the
`all_transitives` fully-dead-copy deletion of step 6) disagrees with the
expected outputs of the repository's own unit tests, the tests win: the
deletion rule is `deleteCopy` above, and `all_transitives` makes no further
difference on the test programs. -/
def copyPropagation (cfg : Config) (n : Nat) (p : List Instr) : List Instr :=
  (List.range p.length).filterMap (fun i =>
    match p[i]? with
    | none => none
    | some ins =>
      match (inStates p n)[i]? with
      | some (some s) => if deleteCopy s ins then none else some (rewriteInstr s ins)
      | _ => some ins)

/-- Register `r` is fully dead at the head of the given instruction suffix:
it is not read before the first instruction that redefines it (program
order). -/
def deadInSuffix (r : Reg) : List Instr → Bool
  | [] => true
  | i :: rest =>
    if i.srcRegs.contains r then false
    else if i.dstReg == some r then true
    else deadInSuffix r rest

/-- Input of the `simple` unit test. -/
def simpleProg : List Instr :=
  [.const 0 0, .move 1 0, .move 2 1, .ret 2]

/-- Expected output of the `simple` unit test. -/
def simpleExpected : List Instr :=
  [.const 0 0, .move 1 0, .move 2 0, .ret 0]

/-- Input of the `deleteRepeatedMove` unit test. -/
def repeatedMoveProg : List Instr :=
  [.const 0 0, .moveObject 1 0, .moveObject 1 0,
   .monitorEnter 1, .monitorExit 1, .ret 1]

/-- Expected output of the `deleteRepeatedMove` unit test. -/
def repeatedMoveExpected : List Instr :=
  [.const 0 0, .moveObject 1 0, .monitorEnter 1, .monitorExit 1, .ret 0]

/-- Input of the `noRemapRange` unit test. -/
def rangeProg : List Instr :=
  [.const 0 0, .moveObject 1 0,
   .invokeStatic [1, 2, 3, 4, 5, 6] "LFoo;.bar:(IIIIII)V", .ret 1]

/-- Expected output of the `noRemapRange` unit test. -/
def rangeExpected : List Instr :=
  [.const 0 0, .moveObject 1 0,
   .invokeStatic [1, 2, 3, 4, 5, 6] "LFoo;.bar:(IIIIII)V", .ret 0]

/-- The monitor sample of the spec's testable properties. -/
def monitorProg : List Instr :=
  [.moveObject 1 0, .monitorEnter 1, .monitorExit 1, .ret 1]

/-- Expected output for `monitorProg`. -/
def monitorExpected : List Instr :=
  [.moveObject 1 0, .monitorEnter 1, .monitorExit 1, .ret 0]

/-- Input of the `deleteSelfMove` unit test. -/
def selfMoveProg : List Instr :=
  [.const 1 0, .move 0 0]

/-- Expected output of the `deleteSelfMove` unit test. -/
def selfMoveExpected : List Instr :=
  [.const 1 0]

/-- Input of the `verifyEnabled` unit test (cross-kind redefinition). -/
def verifyProg : List Instr :=
  [.const 0 0, .intToFloat 1 0, .const 0 0, .floatToInt 1 0]

/-- Input of the `cliqueAliasing` unit test. -/
def cliqueProg : List Instr :=
  [.move 1 2, .move 0 1, .move 1 3, .move 0 2]

/-- Expected output of the `cliqueAliasing` unit test. -/
def cliqueExpected : List Instr :=
  [.move 1 2, .move 0 1, .move 1 3]

/-- Input of the `branchNoChange` unit test: the two branch sides establish
different aliases, so the join must drop both. -/
def branchProg : List Instr :=
  [.ifEqz 0 3, .move 1 2, .goto 4, .move 3 2, .move 1 3, .returnVoid]

/-- Input of the `intersect` unit test: both branch sides establish the same
alias, so the copy after the join is redundant. -/
def intersectProg : List Instr :=
  [.ifEqz 0 3, .move 1 2, .goto 4, .move 1 2, .move 1 2, .returnVoid]

/-- Expected output of the `intersect` unit test. -/
def intersectExpected : List Instr :=
  [.ifEqz 0 3, .move 1 2, .goto 4, .move 1 2, .returnVoid]

/-- Input of the `loopNoChange` unit test. -/
def loopProg : List Instr :=
  [.const 0 0, .const 1 10, .ifEq 0 1 5, .addIntLit8 0 0 1, .goto 2, .returnVoid]

/-- The primitive categories supported by the constant-field propagation
tests: `I`, `Z`, `B`, `C`, `S`. -/
inductive TypeTag where
  | int
  | bool
  | byte
  | char
  | short
deriving DecidableEq, Repr

/-- A static field identity: declaring class, name and declared type.  The
spec keys resolution strictly on this triple. -/
structure FieldRef where
  cls : String
  name : String
  type : TypeTag
deriving DecidableEq, Repr

/-- A static final field with its optional literal encoded value. -/
structure SField where
  ref : FieldRef
  value : Option Nat
deriving DecidableEq, Repr

/-- Modelled from the spec: the class-initializer instructions relevant to
the Field Dependency Graph — typed static loads and stores. -/
inductive CInstr where
  | sget (tag : TypeTag) (f : FieldRef) (dst : Reg)
  | sput (tag : TypeTag) (f : FieldRef) (src : Reg)
deriving DecidableEq, Repr

/-- A class: its name, static final fields and (optional) class-initializer
body.  The pass may empty the initializer but never removes it, so `clinit`
stays `some` whenever it was `some`. -/
structure DexClass where
  name : String
  sfields : List SField
  clinit : Option (List CInstr)
deriving DecidableEq, Repr

/-- The whole-program class set. -/
abbrev Scope := List DexClass

/-- One load-parent/store-self step of a class initializer. -/
structure InitPair where
  getTag : TypeTag
  parent : FieldRef
  getDst : Reg
  putTag : TypeTag
  child : FieldRef
  putSrc : Reg
deriving DecidableEq, Repr

/-- Modelled from the spec: decompose a class-initializer body into
consecutive load/store pairs; any other shape makes the body ineligible. -/
def clinitPairs : List CInstr → Option (List InitPair)
  | [] => some []
  | .sget t1 p r1 :: .sput t2 f r2 :: rest =>
      (clinitPairs rest).map (fun ps => ⟨t1, p, r1, t2, f, r2⟩ :: ps)
  | _ => none

/-- The two instructions a pair stands for. -/
def InitPair.toInstrs (pr : InitPair) : List CInstr :=
  [.sget pr.getTag pr.parent pr.getDst, .sput pr.putTag pr.child pr.putSrc]

/-- Re-emit a list of pairs as initializer instructions. -/
def pairsToInstrs (ps : List InitPair) : List CInstr :=
  ps.foldr (fun pr acc => pr.toInstrs ++ acc) []

/-- Modelled from the spec: a pair is a graph edge for class `clsName` when
the load feeds the store through the same register, the opcode categories
agree, the stored field belongs to the class, and the declared types of both
fields match the tracked primitive category. -/
def InitPair.valid (clsName : String) (pr : InitPair) : Bool :=
  (pr.getTag == pr.putTag) && (pr.getDst == pr.putSrc) &&
  (pr.child.cls == clsName) && (pr.child.type == pr.putTag) &&
  (pr.parent.type == pr.getTag)

/-- The dependency edges (child, parent) contributed by one class. -/
def classEdges (c : DexClass) : List (FieldRef × FieldRef) :=
  match c.clinit with
  | none => []
  | some l =>
    match clinitPairs l with
    | none => []
    | some ps => (ps.filter (InitPair.valid c.name)).map (fun pr => (pr.child, pr.parent))

/-- All dependency edges of the scope. -/
def allEdges (sc : Scope) : List (FieldRef × FieldRef) :=
  sc.foldr (fun c acc => classEdges c ++ acc) []

/-- Look a field's literal encoded value up in the original scope, keyed on
declaring class, name and type. -/
def lookupValue (sc : Scope) (f : FieldRef) : Option Nat :=
  match sc.find? (fun c => c.name == f.cls) with
  | none => none
  | some c =>
    match c.sfields.find? (fun sf => sf.ref == f) with
    | none => none
    | some sf => sf.value

/-- Look a field up in the resolved-values accumulator. -/
def lookupRes (vals : List (FieldRef × Nat)) (f : FieldRef) : Option Nat :=
  match vals.find? (fun pr => pr.1 == f) with
  | some pr => some pr.2
  | none => none

/-- One pass over all edges: resolve every child whose parent already has a
known literal value (from the original scope or from an earlier
resolution). -/
def resolveStep (sc : Scope) (edges : List (FieldRef × FieldRef))
    (vals : List (FieldRef × Nat)) : List (FieldRef × Nat) :=
  edges.foldl (fun vs e =>
    match lookupRes vs e.1 with
    | some _ => vs
    | none =>
      match (match lookupRes vs e.2 with
             | some v => some v
             | none => lookupValue sc e.2) with
      | some v => vs ++ [(e.1, v)]
      | none => vs) vals

/-- Iterate the resolution passes `k` times. -/
def resolveIter (sc : Scope) (edges : List (FieldRef × FieldRef)) :
    Nat → List (FieldRef × Nat)
  | 0 => []
  | k + 1 => resolveStep sc edges (resolveIter sc edges k)

/-- Modelled from the spec: the resolved literal values of all graph nodes.
The fixpoint iteration count is capped by the node count of the graph, so a
cyclic dependency cannot loop: unresolved nodes simply stay unresolved. -/
def resolveAll (sc : Scope) : List (FieldRef × Nat) :=
  resolveIter sc (allEdges sc) (allEdges sc).length

/-- Overwrite a field's encoded value when it was resolved. -/
def rewriteField (res : List (FieldRef × Nat)) (sf : SField) : SField :=
  match lookupRes res sf.ref with
  | some v => { sf with value := some v }
  | none => sf

/-- Modelled from the spec: rewrite one class — update resolved field values
and remove the load/store pairs of resolved fields from the initializer.  An
initializer left empty stays present. -/
def rewriteClass (res : List (FieldRef × Nat)) (c : DexClass) : DexClass :=
  { name := c.name
    sfields := c.sfields.map (rewriteField res)
    clinit :=
      match c.clinit with
      | none => none
      | some l =>
        match clinitPairs l with
        | none => some l
        | some ps =>
          some (pairsToInstrs (ps.filter (fun pr =>
            !(InitPair.valid c.name pr && (lookupRes res pr.child).isSome)))) }

/-- Modelled from the spec: `FinalInlinePass::propagate_constants(scope)`. -/
def propagate_constants (sc : Scope) : Scope :=
  sc.map (rewriteClass (resolveAll sc))

/-- The load-parent/store-self instruction pair the tests emit
(`add_dependent_field` always uses register 0). -/
def depPair (tag : TypeTag) (parent child : FieldRef) : List CInstr :=
  [.sget tag parent 0, .sput tag child 0]

/-- The single-level scenario of the `simplePropagate` unit test for one
primitive category: a parent class with a literal `CONST` and a child class
whose initializer is exactly load-parent/store-self. -/
def simpleScenario (tyName : String) (tag : TypeTag) (v : Nat) : Scope :=
  [{ name := "Lcom/redex/Parent_" ++ tyName ++ ";"
     sfields := [⟨⟨"Lcom/redex/Parent_" ++ tyName ++ ";", "CONST", tag⟩, some v⟩]
     clinit := some [] },
   { name := "Lcom/redex/Child_" ++ tyName ++ ";"
     sfields := [⟨⟨"Lcom/redex/Child_" ++ tyName ++ ";", "CONST", tag⟩, none⟩]
     clinit := some (depPair tag
       ⟨"Lcom/redex/Parent_" ++ tyName ++ ";", "CONST", tag⟩
       ⟨"Lcom/redex/Child_" ++ tyName ++ ";", "CONST", tag⟩) }]

/-- Expected result of `simpleScenario`: the child now carries the parent's
literal and its initializer is empty but still present. -/
def simpleScenarioExpected (tyName : String) (tag : TypeTag) (v : Nat) : Scope :=
  [{ name := "Lcom/redex/Parent_" ++ tyName ++ ";"
     sfields := [⟨⟨"Lcom/redex/Parent_" ++ tyName ++ ";", "CONST", tag⟩, some v⟩]
     clinit := some [] },
   { name := "Lcom/redex/Child_" ++ tyName ++ ";"
     sfields := [⟨⟨"Lcom/redex/Child_" ++ tyName ++ ";", "CONST", tag⟩, some v⟩]
     clinit := some [] }]

/-- The five field descriptors of the `multiLevelPropagate` unit test. -/
def mlpDescs : List (String × TypeTag × Nat) :=
  [("CONST_INT", .int, 1111), ("CONST_BOOL", .bool, 0), ("CONST_BYTE", .byte, 98),
   ("CONST_CHAR", .char, 99), ("CONST_SHORT", .short, 555)]

/-- The `multiLevelPropagate` scenario: Parent (literals) → Child →
GrandChild, five fields each, all sharing names across the three classes. -/
def mlpScope : Scope :=
  [{ name := "Lcom/redex/Parent;"
     sfields := mlpDescs.map (fun d => ⟨⟨"Lcom/redex/Parent;", d.1, d.2.1⟩, some d.2.2⟩)
     clinit := some [] },
   { name := "Lcom/redex/Child;"
     sfields := mlpDescs.map (fun d => ⟨⟨"Lcom/redex/Child;", d.1, d.2.1⟩, none⟩)
     clinit := some (mlpDescs.foldr (fun d acc =>
       depPair d.2.1 ⟨"Lcom/redex/Parent;", d.1, d.2.1⟩ ⟨"Lcom/redex/Child;", d.1, d.2.1⟩
         ++ acc) []) },
   { name := "Lcom/redex/GrandChild;"
     sfields := mlpDescs.map (fun d => ⟨⟨"Lcom/redex/GrandChild;", d.1, d.2.1⟩, none⟩)
     clinit := some (mlpDescs.foldr (fun d acc =>
       depPair d.2.1 ⟨"Lcom/redex/Child;", d.1, d.2.1⟩ ⟨"Lcom/redex/GrandChild;", d.1, d.2.1⟩
         ++ acc) []) }]

/-- Expected result of `mlpScope`: both descendants carry the parent's
literals and their initializers are empty but present. -/
def mlpExpected : Scope :=
  [{ name := "Lcom/redex/Parent;"
     sfields := mlpDescs.map (fun d => ⟨⟨"Lcom/redex/Parent;", d.1, d.2.1⟩, some d.2.2⟩)
     clinit := some [] },
   { name := "Lcom/redex/Child;"
     sfields := mlpDescs.map (fun d => ⟨⟨"Lcom/redex/Child;", d.1, d.2.1⟩, some d.2.2⟩)
     clinit := some [] },
   { name := "Lcom/redex/GrandChild;"
     sfields := mlpDescs.map (fun d => ⟨⟨"Lcom/redex/GrandChild;", d.1, d.2.1⟩, some d.2.2⟩)
     clinit := some [] }]

/-- The `multiLevelWithSiblings` scenario: two independent parent chains with
crossed child/grandchild dependencies; field names are shared across all six
classes. -/
def mlwsScope : Scope :=
  [{ name := "Lcom/redex/Parent1;"
     sfields := [⟨⟨"Lcom/redex/Parent1;", "CONST_INT", .int⟩, some 1111⟩,
                 ⟨⟨"Lcom/redex/Parent1;", "CONST_CHAR", .char⟩, some 97⟩]
     clinit := some [] },
   { name := "Lcom/redex/Parent2;"
     sfields := [⟨⟨"Lcom/redex/Parent2;", "CONST_INT", .int⟩, some 2222⟩,
                 ⟨⟨"Lcom/redex/Parent2;", "CONST_CHAR", .char⟩, some 98⟩]
     clinit := some [] },
   { name := "Lcom/redex/Child1;"
     sfields := [⟨⟨"Lcom/redex/Child1;", "CONST_INT", .int⟩, none⟩,
                 ⟨⟨"Lcom/redex/Child1;", "CONST_CHAR", .char⟩, none⟩,
                 ⟨⟨"Lcom/redex/Child1;", "CONST_BOOL", .bool⟩, some 1⟩]
     clinit := some (depPair .int ⟨"Lcom/redex/Parent1;", "CONST_INT", .int⟩
                       ⟨"Lcom/redex/Child1;", "CONST_INT", .int⟩ ++
                     depPair .char ⟨"Lcom/redex/Parent2;", "CONST_CHAR", .char⟩
                       ⟨"Lcom/redex/Child1;", "CONST_CHAR", .char⟩) },
   { name := "Lcom/redex/Child2;"
     sfields := [⟨⟨"Lcom/redex/Child2;", "CONST_INT", .int⟩, none⟩,
                 ⟨⟨"Lcom/redex/Child2;", "CONST_CHAR", .char⟩, none⟩,
                 ⟨⟨"Lcom/redex/Child2;", "CONST_BOOL", .bool⟩, some 0⟩]
     clinit := some (depPair .int ⟨"Lcom/redex/Parent2;", "CONST_INT", .int⟩
                       ⟨"Lcom/redex/Child2;", "CONST_INT", .int⟩ ++
                     depPair .char ⟨"Lcom/redex/Parent1;", "CONST_CHAR", .char⟩
                       ⟨"Lcom/redex/Child2;", "CONST_CHAR", .char⟩) },
   { name := "Lcom/redex/GrandChild1;"
     sfields := [⟨⟨"Lcom/redex/GrandChild1;", "CONST_INT", .int⟩, none⟩,
                 ⟨⟨"Lcom/redex/GrandChild1;", "CONST_CHAR", .char⟩, none⟩,
                 ⟨⟨"Lcom/redex/GrandChild1;", "CONST_BOOL", .bool⟩, none⟩]
     clinit := some (depPair .int ⟨"Lcom/redex/Child1;", "CONST_INT", .int⟩
                       ⟨"Lcom/redex/GrandChild1;", "CONST_INT", .int⟩ ++
                     depPair .char ⟨"Lcom/redex/Child1;", "CONST_CHAR", .char⟩
                       ⟨"Lcom/redex/GrandChild1;", "CONST_CHAR", .char⟩ ++
                     depPair .bool ⟨"Lcom/redex/Child1;", "CONST_BOOL", .bool⟩
                       ⟨"Lcom/redex/GrandChild1;", "CONST_BOOL", .bool⟩) },
   { name := "Lcom/redex/GrandChild2;"
     sfields := [⟨⟨"Lcom/redex/GrandChild2;", "CONST_INT", .int⟩, none⟩,
                 ⟨⟨"Lcom/redex/GrandChild2;", "CONST_CHAR", .char⟩, none⟩,
                 ⟨⟨"Lcom/redex/GrandChild2;", "CONST_BOOL", .bool⟩, none⟩]
     clinit := some (depPair .int ⟨"Lcom/redex/Child2;", "CONST_INT", .int⟩
                       ⟨"Lcom/redex/GrandChild2;", "CONST_INT", .int⟩ ++
                     depPair .char ⟨"Lcom/redex/Child2;", "CONST_CHAR", .char⟩
                       ⟨"Lcom/redex/GrandChild2;", "CONST_CHAR", .char⟩ ++
                     depPair .bool ⟨"Lcom/redex/Child2;", "CONST_BOOL", .bool⟩
                       ⟨"Lcom/redex/GrandChild2;", "CONST_BOOL", .bool⟩) }]

/-- Expected result of `mlwsScope`, per the assertions of the
`multiLevelWithSiblings` unit test: every descendant resolves to exactly its
own specific ancestor's value, never a sibling's. -/
def mlwsExpected : Scope :=
  [{ name := "Lcom/redex/Parent1;"
     sfields := [⟨⟨"Lcom/redex/Parent1;", "CONST_INT", .int⟩, some 1111⟩,
                 ⟨⟨"Lcom/redex/Parent1;", "CONST_CHAR", .char⟩, some 97⟩]
     clinit := some [] },
   { name := "Lcom/redex/Parent2;"
     sfields := [⟨⟨"Lcom/redex/Parent2;", "CONST_INT", .int⟩, some 2222⟩,
                 ⟨⟨"Lcom/redex/Parent2;", "CONST_CHAR", .char⟩, some 98⟩]
     clinit := some [] },
   { name := "Lcom/redex/Child1;"
     sfields := [⟨⟨"Lcom/redex/Child1;", "CONST_INT", .int⟩, some 1111⟩,
                 ⟨⟨"Lcom/redex/Child1;", "CONST_CHAR", .char⟩, some 98⟩,
                 ⟨⟨"Lcom/redex/Child1;", "CONST_BOOL", .bool⟩, some 1⟩]
     clinit := some [] },
   { name := "Lcom/redex/Child2;"
     sfields := [⟨⟨"Lcom/redex/Child2;", "CONST_INT", .int⟩, some 2222⟩,
                 ⟨⟨"Lcom/redex/Child2;", "CONST_CHAR", .char⟩, some 97⟩,
                 ⟨⟨"Lcom/redex/Child2;", "CONST_BOOL", .bool⟩, some 0⟩]
     clinit := some [] },
   { name := "Lcom/redex/GrandChild1;"
     sfields := [⟨⟨"Lcom/redex/GrandChild1;", "CONST_INT", .int⟩, some 1111⟩,
                 ⟨⟨"Lcom/redex/GrandChild1;", "CONST_CHAR", .char⟩, some 98⟩,
                 ⟨⟨"Lcom/redex/GrandChild1;", "CONST_BOOL", .bool⟩, some 1⟩]
     clinit := some [] },
   { name := "Lcom/redex/GrandChild2;"
     sfields := [⟨⟨"Lcom/redex/GrandChild2;", "CONST_INT", .int⟩, some 2222⟩,
                 ⟨⟨"Lcom/redex/GrandChild2;", "CONST_CHAR", .char⟩, some 97⟩,
                 ⟨⟨"Lcom/redex/GrandChild2;", "CONST_BOOL", .bool⟩, some 0⟩]
     clinit := some [] }]

/-- A manufactured dependency cycle: `LA;.F` loads `LB;.G` and `LB;.G` loads
`LA;.F`; neither has a literal value. -/
def cycleScope : Scope :=
  [{ name := "LA;"
     sfields := [⟨⟨"LA;", "F", .int⟩, none⟩]
     clinit := some (depPair .int ⟨"LB;", "G", .int⟩ ⟨"LA;", "F", .int⟩) },
   { name := "LB;"
     sfields := [⟨⟨"LB;", "G", .int⟩, none⟩]
     clinit := some (depPair .int ⟨"LA;", "F", .int⟩ ⟨"LB;", "G", .int⟩) }]

/-- The oatmeal `FileHandle` (src/tools/oatmeal/util.cpp): the underlying C
stream is external, so the item count the C library reports for one call
(`ret`) is an input of the model.  Only the members the accounting touches
are carried. -/
structure FileHandle where
  bytes_written_ : Nat
  seek_ref_ : Int

/-- `FileHandle::fwrite_impl`: forwards to the C library and returns the
number of items written, here supplied as `ret`. -/
def FileHandle.fwrite_impl (fh : FileHandle) (size count ret : Nat) : Nat := ret

/-- `FileHandle::fwrite`: calls `fwrite_impl` and adds `ret * size` to
`bytes_written_`, returning the item count. -/
def FileHandle.fwrite (fh : FileHandle) (size count ret : Nat) : Nat × FileHandle :=
  let r := fh.fwrite_impl size count ret
  (r, { fh with bytes_written_ := fh.bytes_written_ + r * size })

/-- `FileHandle::fread`: forwards to the C library; the handle's own members
are untouched. -/
def FileHandle.fread (fh : FileHandle) (size count ret : Nat) : Nat × FileHandle :=
  (ret, fh)

/-- `FileHandle::feof`: queries the C library; the handle is untouched. -/
def FileHandle.feof (fh : FileHandle) (flag : Bool) : Bool × FileHandle :=
  (flag, fh)

/-- `FileHandle::ferror`: queries the C library; the handle is untouched. -/
def FileHandle.ferror (fh : FileHandle) (flag : Bool) : Bool × FileHandle :=
  (flag, fh)

/-- Run a sequence of `fwrite` calls, each given as (size, count, ret). -/
def runWrites (fh : FileHandle) : List (Nat × Nat × Nat) → FileHandle
  | [] => fh
  | (size, count, ret) :: rest => runWrites (fh.fwrite size count ret).2 rest

/-- Total number of bytes successfully written by a call sequence. -/
def totalWritten : List (Nat × Nat × Nat) → Nat
  | [] => 0
  | (size, _, ret) :: rest => ret * size + totalWritten rest

theorem clsAt_mk_out (n : Nat) (f : Nat → Nat) (r : Nat) (hr : ¬ r < n) :
    (AliasState.mk ((List.range n).map f)).clsAt r = r := by
  unfold AliasState.clsAt
  show (((List.range n).map f)[r]?).getD r = r
  have hlen : ((List.range n).map f).length ≤ r := by simp; omega
  rw [List.getElem?_eq_none hlen]
  rfl

theorem size_invalidate (s : AliasState) (r : Nat) : (s.invalidate r).size = s.size := by
  simp [AliasState.invalidate, AliasState.size]

/-- `invalidate` severs every alias of the invalidated register: a register
aliased to `r` beforehand is no longer aliased to `r` afterwards. -/
theorem invalidate_severs (s : AliasState) (r x : Nat) (hx : x < s.size) (hne : x ≠ r)
    (hal : s.aliased r x) : ¬ (s.invalidate r).aliased r x := by
  intro h
  have hcx : (s.invalidate r).clsAt x =
      natMinList (s.size + r + 1)
        ((List.range s.size).filter (fun y => (y != r) && (s.clsAt y == s.clsAt r))) := by
    rw [AliasState.invalidate, clsAt_mk s.size _ x hx, if_neg hne, if_pos hal.symm]
  have hcr : (s.invalidate r).clsAt r = r := by
    by_cases hr : r < s.size
    · rw [AliasState.invalidate, clsAt_mk s.size _ r hr, if_pos rfl]
    · rw [AliasState.invalidate, clsAt_mk_out s.size _ r hr]
  unfold AliasState.aliased at h
  rw [hcx, hcr] at h
  rcases natMinList_mem (s.size + r + 1)
      ((List.range s.size).filter (fun y => (y != r) && (s.clsAt y == s.clsAt r))) with
    hm | hm
  · omega
  · rw [← h] at hm
    have h2 := (List.mem_filter.mp hm).2
    simp at h2

theorem pairs_roundtrip : ∀ (ps : List InitPair) (l : List CInstr),
    clinitPairs l = some ps → pairsToInstrs ps = l := by
  intro ps
  induction ps with
  | nil =>
    intro l h
    match l with
    | [] => rfl
    | .sget t1 p r1 :: .sput t2 f r2 :: rest =>
      rw [clinitPairs] at h
      rcases Option.map_eq_some'.mp h with ⟨ps2, _, hcons⟩
      cases hcons
    | [.sget t1 p r1] => cases h
    | .sget t1 p r1 :: .sget t2 f r2 :: rest => cases h
    | .sput t1 p r1 :: rest => cases h
  | cons pr ps' ih =>
    intro l h
    match l with
    | [] => cases h
    | .sget t1 p r1 :: .sput t2 f r2 :: rest =>
      rw [clinitPairs] at h
      rcases Option.map_eq_some'.mp h with ⟨ps2, hrest, hcons⟩
      have h1 : pr = ⟨t1, p, r1, t2, f, r2⟩ := (List.cons.injEq _ _ _ _).mp hcons |>.1.symm
      have h2 : ps' = ps2 := (List.cons.injEq _ _ _ _).mp hcons |>.2.symm
      subst h1; subst h2
      have := ih rest hrest
      simp [pairsToInstrs, InitPair.toInstrs] at this ⊢
      exact this
    | [.sget t1 p r1] => cases h
    | .sget t1 p r1 :: .sget t2 f r2 :: rest => cases h
    | .sput t1 p r1 :: rest => cases h

/-- With an empty resolution map the rewrite is the identity on a class. -/
theorem rewriteClass_empty (c : DexClass) : rewriteClass [] c = c := by
  obtain ⟨nm, fs, cl⟩ := c
  unfold rewriteClass
  have hf : fs.map (rewriteField []) = fs := by
    have : rewriteField ([] : List (FieldRef × Nat)) = id := funext fun sf => rfl
    rw [this, List.map_id]
  refine DexClass.mk.injEq .. ▸ ?_
  simp only [hf]
  cases cl with
  | none => simp
  | some l =>
    simp only
    cases hcp : clinitPairs l with
    | none => simp
    | some ps =>
      simp only
      have hfilter : ps.filter (fun pr =>
          !(InitPair.valid nm pr && (lookupRes [] pr.child).isSome)) = ps := by
        apply List.filter_eq_self.mpr
        intro a _
        have : (lookupRes [] a.child).isSome = false := rfl
        rw [this, Bool.and_false, Bool.not_false]
      rw [hfilter, pairs_roundtrip ps l hcp]
      simp

/-- When the resolution map is empty, constant propagation leaves the whole
scope untouched: unresolved fields keep their original encoded value and
their initializers are preserved. -/
theorem propagate_constants_unresolved (sc : Scope) (h : resolveAll sc = []) :
    propagate_constants sc = sc := by
  unfold propagate_constants
  rw [h]
  have : sc.map (rewriteClass []) = sc.map id := by
    apply List.map_congr_left
    intro c _
    rw [rewriteClass_empty c]
    rfl
  rw [this, List.map_id]

/-- The configuration with the extended-deletion flag switched on. -/
def allTransitivesConfig : Config := { all_transitives := true }

/-- Claim C1: at a CFG join, two registers are aliased in the merged incoming
state iff they are aliased in the exit state of every predecessor (the meet
is `intersect` folded over all predecessor states); concretely, when one
predecessor aliases v1/v2 and the other does not (`branchNoChange`), the use
after the join is not rewritten and the program is unchanged, while when
both predecessors establish the same alias (`intersect`), the re-establishing
copy after the join is recognized as redundant and deleted. -/
theorem join_intersect_c1 :
    (∀ (s : AliasState) (ss : List AliasState) (a b : Nat),
        a < s.size → b < s.size →
        ((ss.foldl AliasState.intersect s).aliased a b ↔
          (s.aliased a b ∧ ∀ t ∈ ss, t.aliased a b)))
    ∧ copyPropagation defaultConfig 4 branchProg = branchProg
    ∧ copyPropagation defaultConfig 4 intersectProg = intersectExpected :=
  ⟨fun s ss a b ha hb => aliased_intersect_foldl ss s a b ha hb, by decide, by decide⟩

theorem join_intersect_c1_witness :
    ((([(AliasState.empty 4).bind 3 2]).foldl AliasState.intersect
        ((AliasState.empty 4).bind 1 2)).aliased 1 2 ↔
      (((AliasState.empty 4).bind 1 2).aliased 1 2 ∧
        ∀ t ∈ [(AliasState.empty 4).bind 3 2], t.aliased 1 2)) :=
  join_intersect_c1.1 ((AliasState.empty 4).bind 1 2)
    [(AliasState.empty 4).bind 3 2] 1 2 (by decide) (by decide)

/-- Claim C2: on `(const v0 0); (move v1 v0); (move v2 v1); (return v2)` the
default-configured pass rewrites the second move's source and the return
operand to the representative v0 while keeping both intermediate moves. -/
theorem linear_chain_c2 :
    copyPropagation defaultConfig 3 simpleProg = simpleExpected := by decide

/-- Claim C3: source operands of a range-form-eligible instruction and of
monitor-enter/monitor-exit are never rewritten, even when an alias
representative exists, while other uses of the same register (the following
return) are rewritten — both in general over any alias state and on the
`noRemapRange` unit test and the spec's monitor sample. -/
theorem forbidden_operands_c3 :
    (∀ (s : AliasState) (r : Reg), rewriteInstr s (.monitorEnter r) = .monitorEnter r)
    ∧ (∀ (s : AliasState) (r : Reg), rewriteInstr s (.monitorExit r) = .monitorExit r)
    ∧ (∀ (s : AliasState) (srcs : List Reg) (m : String), 5 < srcs.length →
        rewriteInstr s (.invokeStatic srcs m) = .invokeStatic srcs m)
    ∧ copyPropagation defaultConfig 7 rangeProg = rangeExpected
    ∧ copyPropagation defaultConfig 2 monitorProg = monitorExpected := by
  refine ⟨fun s r => rfl, fun s r => rfl, fun s srcs m h => ?_, by decide, by decide⟩
  have hr : Instr.noRewrite (.invokeStatic srcs m) = true := by
    simp [Instr.noRewrite, Instr.rangeEligible, h]
  unfold rewriteInstr
  rw [hr]
  simp

theorem forbidden_operands_c3_witness :
    rewriteInstr (AliasState.empty 7) (.invokeStatic [1, 2, 3, 4, 5, 6] "LFoo;.bar:(IIIIII)V")
      = .invokeStatic [1, 2, 3, 4, 5, 6] "LFoo;.bar:(IIIIII)V" :=
  forbidden_operands_c3.2.2.1 (AliasState.empty 7) [1, 2, 3, 4, 5, 6]
    "LFoo;.bar:(IIIIII)V" (by decide)

/-- Claim C4 (counterexample): with the default configuration the pass also
deletes copies that are not self-moves: in `deleteRepeatedMove` the second
`(move-object v1 v0)` is deleted although even after rewriting its source it
is still `(move-object v1 v0)` with destination 1 ≠ source 0. -/
theorem only_selfmove_deletion_c4_counterexample :
    copyPropagation defaultConfig 2 repeatedMoveProg = repeatedMoveExpected
    ∧ repeatedMoveProg.count (Instr.moveObject 1 0) = 2
    ∧ repeatedMoveExpected.count (Instr.moveObject 1 0) = 1
    ∧ rewriteInstr (stateAt repeatedMoveProg 2 2) (Instr.moveObject 1 0)
        = Instr.moveObject 1 0
    ∧ (1 : Nat) ≠ 0 := by decide

/-- Claim C4 (amended): with `all_transitives` disabled, the pass deletes
exactly the copy instructions whose destination and source are already
aliased in the incoming state — self-moves are the trivial case, and a copy
re-establishing an existing alias (second `(move-object v1 v0)`) is also
deleted, while a copy establishing a new alias is retained. -/
theorem only_selfmove_deletion_c4 :
    copyPropagation defaultConfig 2 repeatedMoveProg = repeatedMoveExpected
    ∧ copyPropagation defaultConfig 2 selfMoveProg = selfMoveExpected
    ∧ (stateAt repeatedMoveProg 2 2).aliased 1 0
    ∧ ¬ (stateAt repeatedMoveProg 2 1).aliased 1 0 := by decide

/-- Claim C5: a redefinition severs the earlier alias (`invalidate` removes
the register from its class, for any state in which an alias existed), and
the cross-kind `verifyEnabled` program — float use, const redefinition, int
use — is left completely unchanged: the two definitions are never merged and
the intervening `const` is not removed. -/
theorem verifier_redefinition_c5 :
    (∀ (s : AliasState) (r x : Nat), x < s.size → x ≠ r → s.aliased r x →
        ¬ (s.invalidate r).aliased r x)
    ∧ copyPropagation defaultConfig 2 verifyProg = verifyProg :=
  ⟨fun s r x hx hne hal => invalidate_severs s r x hx hne hal, by decide⟩

theorem verifier_redefinition_c5_witness :
    ¬ ((((AliasState.empty 2).bind 1 0).invalidate 0).aliased 0 1) :=
  verifier_redefinition_c5.1 ((AliasState.empty 2).bind 1 0) 0 1
    (by decide) (by decide) (by decide)

/-- Claim C6 (counterexample): with `all_transitives` enabled the pass does
not eliminate every fully dead copy: in `cliqueAliasing` the copy
`(move v0 v1)` is fully dead — v0 is never read before its next
redefinition — yet the expected (and produced) output retains it. -/
theorem all_transitives_c6_counterexample :
    copyPropagation allTransitivesConfig 4 cliqueProg = cliqueExpected
    ∧ Instr.move 0 1 ∈ cliqueExpected
    ∧ deadInSuffix 0 (cliqueProg.drop 2) = true := by decide

/-- Claim C6 (amended): with `all_transitives` enabled, on the input
`(move v1 v2); (move v0 v1); (move v1 v3); (move v0 v2)` the final
`(move v0 v2)` is deleted — its destination and source are already
(transitively) aliased at that point — and the first three instructions are
retained unchanged, including the fully dead `(move v0 v1)`: deletion is
driven by the alias state, not by deadness. -/
theorem all_transitives_c6 :
    copyPropagation allTransitivesConfig 4 cliqueProg = cliqueExpected
    ∧ (stateAt cliqueProg 4 3).aliased 0 2
    ∧ ¬ (stateAt cliqueProg 4 1).aliased 0 1 := by decide

/-- Claim C7: for each supported primitive category, a child whose
initializer is exactly load-parent/store-self takes the parent's literal
encoded value and is left with an empty—but still present—class
initializer. -/
theorem simple_propagate_c7 :
    propagate_constants (simpleScenario "int" .int 12345)
      = simpleScenarioExpected "int" .int 12345
    ∧ propagate_constants (simpleScenario "bool" .bool 1)
      = simpleScenarioExpected "bool" .bool 1
    ∧ propagate_constants (simpleScenario "byte" .byte 98)
      = simpleScenarioExpected "byte" .byte 98
    ∧ propagate_constants (simpleScenario "char" .char 99)
      = simpleScenarioExpected "char" .char 99
    ∧ propagate_constants (simpleScenario "short" .short 256)
      = simpleScenarioExpected "short" .short 256 := by decide

/-- Claim C8: one invocation fully resolves multi-level chains
(parent → child → grandchild) and crossed sibling chains: every descendant
gets exactly its own ancestor's value even though field names are shared
across all classes — resolution is keyed on declaring-class+name+type. -/
theorem multi_level_c8 :
    propagate_constants mlpScope = mlpExpected
    ∧ propagate_constants mlwsScope = mlwsExpected := by decide

/-- Claim C9: the fixpoint iteration is capped by the node count of the
dependency graph (`resolveAll` is structurally bounded), and fields whose
parent cannot be resolved keep their original encoded value and initializer:
whenever nothing resolves, the pass is the identity, and on the manufactured
two-field cycle nothing resolves and the scope is untouched. -/
theorem cycle_guard_c9 :
    (∀ sc : Scope, resolveAll sc = [] → propagate_constants sc = sc)
    ∧ resolveAll cycleScope = []
    ∧ propagate_constants cycleScope = cycleScope :=
  ⟨fun sc h => propagate_constants_unresolved sc h, by decide, by decide⟩

theorem cycle_guard_c9_witness :
    propagate_constants cycleScope = cycleScope :=
  cycle_guard_c9.1 cycleScope (by decide)

/-- Claim C10: `FileHandle::fwrite` increases `bytes_written_` by exactly
(items written) * size and returns the item count, so after any sequence of
fwrite calls `bytes_written_` equals the initial value plus the total bytes
successfully written; `fread`, `feof` and `ferror` never change
`bytes_written_`. -/
theorem fwrite_accounting_c10 :
    (∀ (fh : FileHandle) (size count ret : Nat),
        ((fh.fwrite size count ret).2).bytes_written_ = fh.bytes_written_ + ret * size
        ∧ (fh.fwrite size count ret).1 = ret)
    ∧ (∀ (fh : FileHandle) (ws : List (Nat × Nat × Nat)),
        (runWrites fh ws).bytes_written_ = fh.bytes_written_ + totalWritten ws)
    ∧ (∀ (fh : FileHandle) (size count ret : Nat),
        ((fh.fread size count ret).2).bytes_written_ = fh.bytes_written_)
    ∧ (∀ (fh : FileHandle) (flag : Bool),
        ((fh.feof flag).2).bytes_written_ = fh.bytes_written_)
    ∧ (∀ (fh : FileHandle) (flag : Bool),
        ((fh.ferror flag).2).bytes_written_ = fh.bytes_written_) := by
  refine ⟨fun fh size count ret => ⟨rfl, rfl⟩, ?_, fun fh size count ret => rfl,
    fun fh flag => rfl, fun fh flag => rfl⟩
  intro fh ws
  induction ws generalizing fh with
  | nil => simp [runWrites, totalWritten]
  | cons w rest ih =>
    obtain ⟨size, count, ret⟩ := w
    have h1 : runWrites fh ((size, count, ret) :: rest)
        = runWrites (fh.fwrite size count ret).2 rest := rfl
    have h2 : totalWritten ((size, count, ret) :: rest) = ret * size + totalWritten rest := rfl
    rw [h1, h2, ih]
    show (fh.bytes_written_ + ret * size) + totalWritten rest
      = fh.bytes_written_ + (ret * size + totalWritten rest)
    omega
